import Mathlib

/- Shallow embedding of the engagement core of the Social-Bee server
   (follow graph, interaction ledger, counters, rate limiter, timeline
   aggregation, cursor codec, notification fan-out), with proofs of the
   specification claims about it.  Each section names the JavaScript
   source file it models. -/

namespace SocialBee

/-! ## Social graph store (models src/models/User.js, follow part) -/

/-- DynamoDB ADD on a string set: adds the element when absent, never a
duplicate. -/
def addToSet (x : String) (l : List String) : List String :=
  if x ∈ l then l else l ++ [x]

/-- DynamoDB DELETE on a string set: removes the element. -/
def removeFromSet (x : String) (l : List String) : List String :=
  l.filter (fun y => y ≠ x)

/-- Follow-graph state: the `following` and `followers` set attributes of
the user items in the users table, read as total maps with default empty
set (a missing attribute reads as the empty list, as in `User.getFollowers`
and `User.getFollowing`). -/
@[ext] structure GraphState where
  following : String → List String
  followers : String → List String

/-- Models the `dynamoDb.createSet` property that User.followUser and
User.unfollowUser read off the config/dynamodb.js wrapper: the wrapper
exports only get/put/update/delete/query/scan/batchGet/batchWrite/
transactWrite, so the property read yields undefined and calling it throws
a TypeError. -/
def dynamoDbCreateSet : Option (List String → List String) := none

/-- DynamoDB ADD of a set value: each member is added when absent. -/
def addAllToSet (xs : List String) (l : List String) : List String :=
  xs.foldl (fun acc x => addToSet x acc) l

/-- DynamoDB DELETE of a set value: each member is removed. -/
def removeAllFromSet (xs : List String) (l : List String) : List String :=
  xs.foldl (fun acc x => removeFromSet x acc) l

namespace User

/-- Models `User.followUser`: it evaluates `dynamoDb.createSet([targetUserId])`
while building the first update's parameters; the wrapper has no createSet,
so this throws a TypeError before either update is issued and the state is
never mutated.  The guarded branch is the two-step set-ADD the source
intends. -/
def followUser (s : GraphState) (userId targetUserId : String) :
    Except String GraphState :=
  match dynamoDbCreateSet with
  | none => .error "TypeError: dynamoDb.createSet is not a function"
  | some createSet =>
    let s1 : GraphState :=
      { s with following := fun u =>
          if u = userId then addAllToSet (createSet [targetUserId]) (s.following u)
          else s.following u }
    .ok { s1 with followers := fun u =>
        if u = targetUserId then addAllToSet (createSet [userId]) (s1.followers u)
        else s1.followers u }

/-- Models `User.unfollowUser`: same missing `dynamoDb.createSet`, so it
throws the same TypeError before either DELETE update is issued. -/
def unfollowUser (s : GraphState) (userId targetUserId : String) :
    Except String GraphState :=
  match dynamoDbCreateSet with
  | none => .error "TypeError: dynamoDb.createSet is not a function"
  | some createSet =>
    let s1 : GraphState :=
      { s with following := fun u =>
          if u = userId then removeAllFromSet (createSet [targetUserId]) (s.following u)
          else s.following u }
    .ok { s1 with followers := fun u =>
        if u = targetUserId then removeAllFromSet (createSet [userId]) (s1.followers u)
        else s1.followers u }

/-- Models `User.getFollowers`: read the followers set of the user item. -/
def getFollowers (s : GraphState) (userId : String) : List String :=
  s.followers userId

/-- Models `User.getFollowing`. -/
def getFollowing (s : GraphState) (userId : String) : List String :=
  s.following userId

end User

/-- Modelled from the spec (section 4.2), for contrast: follow(a, b) as the
two idempotent set-adds the design requires. -/
def specFollow (s : GraphState) (userId targetUserId : String) : GraphState :=
  let s1 : GraphState :=
    { s with following := fun u =>
        if u = userId then addToSet targetUserId (s.following u) else s.following u }
  { s1 with followers := fun u =>
      if u = targetUserId then addToSet userId (s1.followers u) else s1.followers u }

/-- Modelled from the spec (section 4.2), for contrast: unfollow(a, b) as
two set-removes. -/
def specUnfollow (s : GraphState) (userId targetUserId : String) : GraphState :=
  let s1 : GraphState :=
    { s with following := fun u =>
        if u = userId then removeFromSet targetUserId (s.following u) else s.following u }
  { s1 with followers := fun u =>
      if u = targetUserId then removeFromSet userId (s1.followers u) else s1.followers u }

/-- Models the `isFollowing` computation of `userController.getProfile`:
when the requesting user differs from the profile user it is
`getFollowing(requester).includes(target)`, otherwise it stays false. -/
def isFollowing (s : GraphState) (reqUserId userId : String) : Bool :=
  if reqUserId ≠ userId then (User.getFollowing s reqUserId).contains userId else false

theorem mem_addToSet_self (x : String) (l : List String) : x ∈ addToSet x l := by
  by_cases h : x ∈ l <;> simp [addToSet, h]

theorem addToSet_idem (x : String) (l : List String) :
    addToSet x (addToSet x l) = addToSet x l := by
  by_cases h : x ∈ l <;> simp [addToSet, h]

theorem not_mem_removeFromSet (x : String) (l : List String) :
    x ∉ removeFromSet x l := by
  simp [removeFromSet]

theorem contains_removeFromSet_self (x : String) (l : List String) :
    (removeFromSet x l).contains x = false := by
  simpa using not_mem_removeFromSet x l

/-- The empty follow graph, used to instantiate the claim. -/
def emptyGraph : GraphState := ⟨fun _ => [], fun _ => []⟩

/-- C3: follow and unfollow throw a TypeError before issuing any write
(the wrapper exports no createSet), so after a follow(alice, bob) call the
state is unchanged and the isFollowing check stays false and alice never
enters followers(bob) — the claim fails on the code; the spec-modelled
set-add follow satisfies all the claimed properties at the same input,
including the idempotence of a repeated follow. -/
theorem C3_follow_throws_before_write :
    User.followUser emptyGraph "alice" "bob" =
      .error "TypeError: dynamoDb.createSet is not a function" ∧
    User.unfollowUser emptyGraph "alice" "bob" =
      .error "TypeError: dynamoDb.createSet is not a function" ∧
    isFollowing emptyGraph "alice" "bob" = false ∧
    isFollowing (specFollow emptyGraph "alice" "bob") "alice" "bob" = true ∧
    "alice" ∈ User.getFollowers (specFollow emptyGraph "alice" "bob") "bob" ∧
    isFollowing (specUnfollow (specFollow emptyGraph "alice" "bob") "alice" "bob")
      "alice" "bob" = false ∧
    "alice" ∉ User.getFollowers
      (specUnfollow (specFollow emptyGraph "alice" "bob") "alice" "bob") "bob" ∧
    specFollow (specFollow emptyGraph "alice" "bob") "alice" "bob" =
      specFollow emptyGraph "alice" "bob" := by
  refine ⟨rfl, rfl, rfl, by decide, by decide, by decide, by decide, ?_⟩
  ext u
  · simp only [specFollow]
    by_cases hu : u = "alice" <;> simp [hu, addToSet_idem]
  · simp only [specFollow]
    by_cases hu : u = "bob" <;> simp [hu, addToSet_idem]

/-! ## Interaction ledger and engagement counters
(models src/models/Interaction.js and the Post model, like/unlike part).
Rows keep the fields the claims depend on; the like rows written by
`Post.like` carry empty `content` and no `parentId`, standing for the
absent attributes of the source item. -/

structure InteractionRow where
  interactionId : String
  type : String
  userId : String
  contentId : String
  content : String
  parentId : Option String
deriving DecidableEq

/-- Counter attributes of a post item touched by the ledger. -/
structure PostCounters where
  likesCount : Int
  commentsCount : Int
deriving DecidableEq

/-- Ledger state: the posts table (counter attributes per postId) and the
interactions table. -/
structure LedgerState where
  posts : List (String × PostCounters)
  interactions : List InteractionRow
deriving DecidableEq

/-- Reading a counter attribute: lookup by key, where a missing item or
attribute reads as 0, matching DynamoDB ADD semantics. -/
def getCounters : List (String × PostCounters) → String → PostCounters
  | [], _ => ⟨0, 0⟩
  | e :: rest, postId => if e.1 = postId then e.2 else getCounters rest postId

/-- DynamoDB `UpdateExpression: ADD`: updates the item with the key, creating
it with zero counters when absent. -/
def updCounters (postId : String) (f : PostCounters → PostCounters) :
    List (String × PostCounters) → List (String × PostCounters)
  | [] => [(postId, f ⟨0, 0⟩)]
  | e :: rest => if e.1 = postId then (postId, f e.2) :: rest else e :: updCounters postId f rest

def addLikesCount (delta : Int) (c : PostCounters) : PostCounters :=
  { c with likesCount := c.likesCount + delta }

def addCommentsCount (delta : Int) (c : PostCounters) : PostCounters :=
  { c with commentsCount := c.commentsCount + delta }

/-- DynamoDB put without a condition: replaces the item with the same key,
appends otherwise. -/
def putInteraction (r : InteractionRow) : List InteractionRow → List InteractionRow
  | [] => [r]
  | x :: rest =>
    if x.interactionId = r.interactionId then r :: rest else x :: putInteraction r rest

/-- DynamoDB delete by key. -/
def deleteInteractionRow (iid : String) (l : List InteractionRow) : List InteractionRow :=
  l.filter (fun x => !(x.interactionId == iid))

/-- A single write against the backing store, as issued by
`Interaction.create`: the conditional put of the interaction row
(`ConditionExpression: attribute_not_exists(interactionId)`), or the
separate `ADD commentsCount` update on the posts table. -/
inductive StoreWrite where
  | condPutInteraction (r : InteractionRow)
  | addComments (postId : String) (delta : Int)

/-- Applies one store write; `none` means the write was rejected (the only
rejection is the failed conditional put, which makes the model throw). -/
def applyWrite (s : LedgerState) : StoreWrite → Option LedgerState
  | .condPutInteraction r =>
    if s.interactions.any (fun x => x.interactionId == r.interactionId) then none
    else some { s with interactions := s.interactions ++ [r] }
  | .addComments postId delta =>
    some { s with posts := updCounters postId (addCommentsCount delta) s.posts }

/-- Runs store writes sequentially, as the awaited calls of the source run:
a rejected write throws, so later writes never run, while earlier writes
stay applied. -/
def runWrites (s : LedgerState) : List StoreWrite → LedgerState
  | [] => s
  | w :: ws =>
    match applyWrite s w with
    | none => s
    | some s1 => runWrites s1 ws

/-- Store writes issued by `Interaction.create`: the conditional put of the
row and then, only for a comment, the separate commentsCount increment.
These are two independent calls in the source, not one transaction. -/
def createWrites (r : InteractionRow) : List StoreWrite :=
  .condPutInteraction r :: (if r.type = "comment" then [.addComments r.contentId 1] else [])

namespace Interaction

/-- Models `Interaction.create` run to completion. -/
def create (s : LedgerState) (r : InteractionRow) : LedgerState :=
  runWrites s (createWrites r)

/-- Models `Interaction.delete`: load the row by id, reject when missing or
when the stored userId differs from the caller; otherwise delete the row
and, when it was a comment, `ADD commentsCount -1` on the owning post.
The Bool is false exactly when the source throws. -/
def delete (s : LedgerState) (interactionId userId : String) : LedgerState × Bool :=
  match s.interactions.find? (fun x => x.interactionId == interactionId) with
  | none => (s, false)
  | some r =>
    if r.userId ≠ userId then (s, false)
    else
      let s1 : LedgerState := { s with interactions := deleteInteractionRow interactionId s.interactions }
      if r.type = "comment" then
        ({ s1 with posts := updCounters r.contentId (addCommentsCount (-1)) s1.posts }, true)
      else (s1, true)

end Interaction

namespace Post

/-- Models `Post.like`: one `transactWrite` holding the `ADD likesCount 1`
update and the unconditional put of a fresh like row, applied atomically. -/
def like (s : LedgerState) (postId userId interactionId : String) : LedgerState :=
  { posts := updCounters postId (addLikesCount 1) s.posts,
    interactions := putInteraction
      { interactionId := interactionId, type := "like", userId := userId,
        contentId := postId, content := "", parentId := none } s.interactions }

/-- Models the DynamoDB query `Post.unlike` issues on UserContentIndex:
its `FilterExpression: 'type = :type'` uses the unaliased reserved word
`type` (which the repo aliases elsewhere, e.g. `#count` and `#read`), so
DynamoDB rejects the request with a ValidationException before touching
any data — the query always throws. -/
def unlikeQuery (interactions : List InteractionRow) (postId userId : String) :
    Except String (List InteractionRow) :=
  .error "ValidationException: reserved keyword: type"

/-- Models `Post.unlike`: the like-row query always throws (see
`unlikeQuery`), the throw propagates out of unlike, and nothing is deleted
or decremented.  The dead branch is what the source would do with the
query's items: return failure when none, else one transactWrite deleting
the first row and decrementing likesCount. -/
def unlike (s : LedgerState) (postId userId : String) : LedgerState × Bool :=
  match unlikeQuery s.interactions postId userId with
  | .error _ => (s, false)
  | .ok items =>
    match items.head? with
    | none => (s, false)
    | some r =>
      ({ posts := updCounters postId (addLikesCount (-1)) s.posts,
         interactions := deleteInteractionRow r.interactionId s.interactions }, true)

end Post

theorem getCounters_updCounters (postId : String) (f : PostCounters → PostCounters)
    (posts : List (String × PostCounters)) (c : String) :
    getCounters (updCounters postId f posts) c =
      if c = postId then f (getCounters posts postId) else getCounters posts c := by
  induction posts with
  | nil =>
    by_cases hc : c = postId
    · simp [updCounters, getCounters, hc]
    · have hpc : postId ≠ c := fun h => hc h.symm
      simp [updCounters, getCounters, hc, hpc]
  | cons e rest ih =>
    by_cases he : e.1 = postId
    · by_cases hc : c = postId
      · subst hc
        simp [updCounters, getCounters, he]
      · have hpc : postId ≠ c := fun h => hc h.symm
        have hec : e.1 ≠ c := fun h => hpc (he.symm.trans h)
        simp [updCounters, getCounters, he, hpc, hec, hc]
    · by_cases hc : c = postId
      · subst hc
        simp [updCounters, getCounters, he, ih]
      · by_cases hec : e.1 = c
        · simp [updCounters, getCounters, he, hec, hc]
        · simp [updCounters, getCounters, he, hec, hc, ih]

theorem putInteraction_fresh (r : InteractionRow) (l : List InteractionRow)
    (h : ∀ x ∈ l, x.interactionId ≠ r.interactionId) :
    putInteraction r l = l ++ [r] := by
  induction l with
  | nil => rfl
  | cons x rest ih =>
    have hx : x.interactionId ≠ r.interactionId := h x (by simp)
    simp only [putInteraction, if_neg hx, List.cons_append, List.cons.injEq, true_and]
    exact ih fun y hy => h y (by simp [hy])

/-- The concrete comment row used for the C1 refutation. -/
def commentRowC1 : InteractionRow :=
  ⟨"i1", "comment", "u1", "p1", "hello", none⟩

/-- C1 counterexample: starting from the empty store, the execution of
`Interaction.create` for a comment that fails after its first store call
(the prefix holding only the put) leaves the interaction row appended while
commentsCount of the owning post is still 0, and differs from the complete
execution — so the append and the increment are not one atomic unit. -/
theorem C1_counterexample :
    runWrites ⟨[], []⟩ ((createWrites commentRowC1).take 1) = ⟨[], [commentRowC1]⟩ ∧
    (getCounters (runWrites ⟨[], []⟩ ((createWrites commentRowC1).take 1)).posts
      "p1").commentsCount = 0 ∧
    Interaction.create ⟨[], []⟩ commentRowC1 ≠
      runWrites ⟨[], []⟩ ((createWrites commentRowC1).take 1) := by
  refine ⟨rfl, rfl, ?_⟩
  decide

/-- C1 amended: `Interaction.create` for a comment issues the append and the
counter increment as two separate sequential writes: the complete execution
applies both, while the execution cut after the first write leaves the row
appended with the counters untouched. -/
theorem C1_comment_create_two_writes (s : LedgerState) (r : InteractionRow)
    (hc : r.type = "comment")
    (hfresh : s.interactions.any (fun x => x.interactionId == r.interactionId) = false) :
    Interaction.create s r =
      { posts := updCounters r.contentId (addCommentsCount 1) s.posts,
        interactions := s.interactions ++ [r] } ∧
    runWrites s ((createWrites r).take 1) = { s with interactions := s.interactions ++ [r] } := by
  constructor
  · simp [Interaction.create, createWrites, hc, runWrites, applyWrite, hfresh]
  · simp [createWrites, hc, runWrites, applyWrite, hfresh]

/-- Witness for the amended C1 at a one-post store. -/
theorem C1_comment_create_two_writes_witness :
    Interaction.create ⟨[("p1", ⟨0, 0⟩)], []⟩ commentRowC1 =
      { posts := updCounters "p1" (addCommentsCount 1) [("p1", ⟨0, 0⟩)],
        interactions := [commentRowC1] } ∧
    runWrites ⟨[("p1", ⟨0, 0⟩)], []⟩ ((createWrites commentRowC1).take 1) =
      { posts := [("p1", ⟨0, 0⟩)], interactions := [commentRowC1] } := by
  have h := C1_comment_create_two_writes ⟨[("p1", ⟨0, 0⟩)], []⟩ commentRowC1 rfl (by decide)
  simpa using h

/-- The concrete store used for the C4 refutation: one comment on a post
whose commentsCount is 0. -/
def s0C4 : LedgerState :=
  ⟨[("p1", ⟨0, 0⟩)], [⟨"c1", "comment", "u1", "p1", "hi", none⟩]⟩

/-- C4 counterexample: deleting the comment succeeds while the owning post
counter starts at 0, and afterwards commentsCount is -1 — the decrement has
no floor at 0, so the counter does go negative. -/
theorem C4_counterexample :
    (Interaction.delete s0C4 "c1" "u1").2 = true ∧
    (getCounters s0C4.posts "p1").commentsCount = 0 ∧
    (getCounters (Interaction.delete s0C4 "c1" "u1").1.posts "p1").commentsCount = -1 := by
  decide

/-- C4 amended: `remove` loads the interaction and fails with state
unchanged when the stored actor differs from the caller; when it succeeds
on a comment it decrements the owning commentsCount by exactly one, with no
floor — from a starting value n the counter becomes n - 1, negative when
n = 0. -/
theorem C4_remove_decrements_without_floor (s : LedgerState) (iid uid : String)
    (r : InteractionRow)
    (hfind : s.interactions.find? (fun x => x.interactionId == iid) = some r) :
    (r.userId ≠ uid → Interaction.delete s iid uid = (s, false)) ∧
    (r.userId = uid → r.type = "comment" →
      (getCounters (Interaction.delete s iid uid).1.posts r.contentId).commentsCount =
        (getCounters s.posts r.contentId).commentsCount - 1) := by
  constructor
  · intro hne
    simp [Interaction.delete, hfind, hne]
  · intro hu ht
    simp only [Interaction.delete, hfind, hu, ne_eq, not_true_eq_false, if_false, ht, if_true]
    rw [getCounters_updCounters]
    simp [addCommentsCount]
    omega

/-- Witness for the amended C4 at the concrete one-comment store. -/
theorem C4_remove_decrements_without_floor_witness :
    ((⟨"c1", "comment", "u1", "p1", "hi", none⟩ : InteractionRow).userId ≠ "u2" →
      Interaction.delete s0C4 "c1" "u2" = (s0C4, false)) ∧
    ((⟨"c1", "comment", "u1", "p1", "hi", none⟩ : InteractionRow).userId = "u1" →
      (⟨"c1", "comment", "u1", "p1", "hi", none⟩ : InteractionRow).type = "comment" →
      (getCounters (Interaction.delete s0C4 "c1" "u1").1.posts "p1").commentsCount =
        (getCounters s0C4.posts "p1").commentsCount - 1) :=
  ⟨(C4_remove_decrements_without_floor s0C4 "c1" "u2" _ (by decide)).1,
   (C4_remove_decrements_without_floor s0C4 "c1" "u1" _ (by decide)).2⟩

/-- Count of like rows stored for one (actor, content) pair. -/
def pairLikeCount (s : LedgerState) (postId userId : String) : Nat :=
  (s.interactions.filter
    (fun r => r.userId == userId && r.contentId == postId && r.type == "like")).length

/-- The store after the same user likes the same post twice (fresh row ids,
as uuidv4 yields). -/
def likeTwiceState : LedgerState :=
  Post.like (Post.like ⟨[], []⟩ "p1" "u1" "i1") "p1" "u1" "i2"

/-- C5 counterexample: after two like calls for the same (actor, content)
pair there are two like rows for the pair and likesCount is 2, a state
different from the one after a single call — the duplicate like is not
prevented. -/
theorem C5_counterexample :
    pairLikeCount likeTwiceState "p1" "u1" = 2 ∧
    (getCounters likeTwiceState.posts "p1").likesCount = 2 ∧
    likeTwiceState ≠ Post.like ⟨[], []⟩ "p1" "u1" "i1" := by
  decide

/-- C5 amended: a second like by the same actor on the same content is not
prevented: with fresh distinct row ids (as uuidv4 yields) it appends a
second like row for the pair and increments the counter again, so after two
like calls the pair has two more like rows, the counter is two higher, and
the state differs from the state after one call. -/
theorem C5_duplicate_like_not_prevented (s : LedgerState) (p u i1 i2 : String)
    (h1 : ∀ x ∈ s.interactions, x.interactionId ≠ i1)
    (h2 : ∀ x ∈ s.interactions, x.interactionId ≠ i2)
    (h12 : i1 ≠ i2) :
    pairLikeCount (Post.like (Post.like s p u i1) p u i2) p u = pairLikeCount s p u + 2 ∧
    (getCounters (Post.like (Post.like s p u i1) p u i2).posts p).likesCount =
      (getCounters s.posts p).likesCount + 2 ∧
    Post.like (Post.like s p u i1) p u i2 ≠ Post.like s p u i1 := by
  have e1 : (Post.like s p u i1).interactions =
      s.interactions ++ [⟨i1, "like", u, p, "", none⟩] :=
    putInteraction_fresh _ _ h1
  have h2b : ∀ x ∈ (Post.like s p u i1).interactions, x.interactionId ≠ i2 := by
    rw [e1]
    intro x hx
    rcases List.mem_append.mp hx with h | h
    · exact h2 x h
    · simp only [List.mem_singleton] at h
      subst h
      simpa using h12
  have e2 : (Post.like (Post.like s p u i1) p u i2).interactions =
      s.interactions ++ [⟨i1, "like", u, p, "", none⟩, ⟨i2, "like", u, p, "", none⟩] := by
    have h := putInteraction_fresh ⟨i2, "like", u, p, "", none⟩
      (Post.like s p u i1).interactions h2b
    rw [show (Post.like (Post.like s p u i1) p u i2).interactions =
        putInteraction ⟨i2, "like", u, p, "", none⟩ (Post.like s p u i1).interactions from rfl,
      h, e1, List.append_assoc]
    rfl
  refine ⟨?_, ?_, ?_⟩
  · simp only [pairLikeCount, e2, List.filter_append, List.length_append]
    simp
  · show (getCounters (updCounters p (addLikesCount 1) (Post.like s p u i1).posts) p).likesCount = _
    have ep : (Post.like s p u i1).posts = updCounters p (addLikesCount 1) s.posts := rfl
    rw [ep, getCounters_updCounters, getCounters_updCounters]
    simp [addLikesCount]
    omega
  · intro heq
    have hlen := congrArg (fun st => st.interactions.length) heq
    simp only [e2, e1] at hlen
    simp at hlen

/-- Witness for the amended C5 at the empty store. -/
theorem C5_duplicate_like_not_prevented_witness :
    pairLikeCount (Post.like (Post.like ⟨[], []⟩ "p1" "u1" "i1") "p1" "u1" "i2") "p1" "u1" =
      pairLikeCount ⟨[], []⟩ "p1" "u1" + 2 ∧
    (getCounters (Post.like (Post.like ⟨[], []⟩ "p1" "u1" "i1") "p1" "u1" "i2").posts
      "p1").likesCount = (getCounters (⟨[], []⟩ : LedgerState).posts "p1").likesCount + 2 ∧
    Post.like (Post.like ⟨[], []⟩ "p1" "u1" "i1") "p1" "u1" "i2" ≠
      Post.like ⟨[], []⟩ "p1" "u1" "i1" :=
  C5_duplicate_like_not_prevented ⟨[], []⟩ "p1" "u1" "i1" "i2"
    (by intro x hx; cases hx) (by intro x hx; cases hx) (by decide)

/-! ## Counter/ledger consistency (claim C2) -/

/-- Number of stored (undeleted) like interactions targeting a content id. -/
def likeCountOf (s : LedgerState) (c : String) : Int :=
  ((s.interactions.filter (fun r => r.type == "like" && r.contentId == c)).length : Int)

/-- Number of stored (undeleted) comment interactions targeting a content id. -/
def commentCountOf (s : LedgerState) (c : String) : Int :=
  ((s.interactions.filter (fun r => r.type == "comment" && r.contentId == c)).length : Int)

/-- The counters of every content item agree with the interaction log. -/
def CountersMatch (s : LedgerState) : Prop :=
  ∀ c : String,
    (getCounters s.posts c).likesCount = likeCountOf s c ∧
    (getCounters s.posts c).commentsCount = commentCountOf s c

/-- Table well-formedness: interaction ids are pairwise distinct, as primary
keys of the backing table are. -/
def WFLedger (s : LedgerState) : Prop :=
  (s.interactions.map (fun x => x.interactionId)).Nodup

/-- One completed ledger operation of the kinds claim C2 quantifies over:
like/unlike a post, create a comment, delete a comment. -/
inductive LedgerOp where
  | like (postId userId interactionId : String)
  | unlike (postId userId : String)
  | createComment (interactionId userId contentId content : String) (parentId : Option String)
  | deleteComment (interactionId userId : String)

/-- Applies one completed operation through the modelled source functions. -/
def applyOp (s : LedgerState) : LedgerOp → LedgerState
  | .like p u i => Post.like s p u i
  | .unlike p u => (Post.unlike s p u).1
  | .createComment i u c txt pid => Interaction.create s ⟨i, "comment", u, c, txt, pid⟩
  | .deleteComment i u => (Interaction.delete s i u).1

/-- Side conditions of a step: a like op carries a fresh uuid, and a
delete-comment op targets an id that is not a stored non-comment row. -/
def okOp (s : LedgerState) : LedgerOp → Bool
  | .like _ _ i => !(s.interactions.any (fun x => x.interactionId == i))
  | .unlike _ _ => true
  | .createComment _ _ _ _ _ => true
  | .deleteComment i _ =>
    match s.interactions.find? (fun x => x.interactionId == i) with
    | some r => r.type == "comment"
    | none => true

def runOps (s : LedgerState) : List LedgerOp → LedgerState
  | [] => s
  | op :: ops => runOps (applyOp s op) ops

def okRun (s : LedgerState) : List LedgerOp → Bool
  | [] => true
  | op :: ops => okOp s op && okRun (applyOp s op) ops

/-- Removing the unique row with a given id changes a filter count by
exactly the membership of that row in the filter. -/
theorem length_filter_remove_id (p : InteractionRow → Bool) (l : List InteractionRow)
    (r : InteractionRow) (hmem : r ∈ l)
    (hnd : (l.map (fun x => x.interactionId)).Nodup) :
    ((l.filter (fun x => !(x.interactionId == r.interactionId))).filter p).length
      + (if p r then 1 else 0) = (l.filter p).length := by
  induction l with
  | nil => cases hmem
  | cons x rest ih =>
    simp only [List.map_cons, List.nodup_cons] at hnd
    obtain ⟨hx, hrest⟩ := hnd
    by_cases hid : x.interactionId = r.interactionId
    · have hxr : x = r := by
        rcases List.mem_cons.mp hmem with h | h
        · exact h.symm
        · exact absurd (List.mem_map.mpr ⟨r, h, hid.symm⟩) (by simpa [hid] using hx)
      subst hxr
      have htail : rest.filter (fun y => !(y.interactionId == x.interactionId)) = rest := by
        apply List.filter_eq_self.mpr
        intro y hy
        have hne : y.interactionId ≠ x.interactionId := by
          intro hcon
          exact hx (List.mem_map.mpr ⟨y, hy, hcon⟩)
        simpa using hne
      have e4 : (x :: rest).filter (fun y => !(y.interactionId == x.interactionId)) = rest := by
        rw [List.filter_cons_of_neg (by simp)]
        exact htail
      rw [e4]
      by_cases hpx : p x = true
      · rw [List.filter_cons_of_pos hpx]
        simp [hpx]
      · rw [List.filter_cons_of_neg hpx]
        simp [show p x = false by simpa using hpx]
    · have hr : r ∈ rest := by
        rcases List.mem_cons.mp hmem with h | h
        · exact absurd (h ▸ rfl : r.interactionId = x.interactionId) (fun hh => hid hh.symm)
        · exact h
      have hkeep : (!(x.interactionId == r.interactionId)) = true := by simpa using hid
      have e3 : (x :: rest).filter (fun y => !(y.interactionId == r.interactionId)) =
          x :: rest.filter (fun y => !(y.interactionId == r.interactionId)) :=
        List.filter_cons_of_pos hkeep
      rw [e3]
      by_cases hpx : p x = true
      · rw [List.filter_cons_of_pos hpx, List.filter_cons_of_pos hpx]
        simp only [List.length_cons]
        have := ih hr hrest
        omega
      · rw [List.filter_cons_of_neg hpx, List.filter_cons_of_neg hpx]
        exact ih hr hrest

theorem countInt_append (l : List InteractionRow) (r : InteractionRow)
    (q : InteractionRow → Bool) :
    (((l ++ [r]).filter q).length : Int) =
      ((l.filter q).length : Int) + (if q r then 1 else 0) := by
  rw [List.filter_append]
  by_cases h : q r = true
  · simp [h]
  · simp [h]

theorem wf_append_fresh (s : LedgerState) (r : InteractionRow)
    (hwf : WFLedger s)
    (hf : ∀ x ∈ s.interactions, x.interactionId ≠ r.interactionId) :
    ((s.interactions ++ [r]).map (fun x => x.interactionId)).Nodup := by
  rw [List.map_append, List.nodup_append]
  refine ⟨hwf, by simp, ?_⟩
  intro a ha
  simp only [List.map_cons, List.map_nil, List.mem_singleton]
  rcases List.mem_map.mp ha with ⟨x, hx, rfl⟩
  exact hf x hx

theorem wf_remove (s : LedgerState) (iid : String) (hwf : WFLedger s) :
    ((deleteInteractionRow iid s.interactions).map (fun x => x.interactionId)).Nodup :=
  hwf.sublist (List.Sublist.map _ (List.filter_sublist _))

theorem preserve_like (s : LedgerState) (p u i : String)
    (hf : ∀ x ∈ s.interactions, x.interactionId ≠ i)
    (hwf : WFLedger s) (hcm : CountersMatch s) :
    WFLedger (Post.like s p u i) ∧ CountersMatch (Post.like s p u i) := by
  have e1 : (Post.like s p u i).interactions =
      s.interactions ++ [⟨i, "like", u, p, "", none⟩] :=
    putInteraction_fresh _ _ hf
  have ep : (Post.like s p u i).posts = updCounters p (addLikesCount 1) s.posts := rfl
  constructor
  · show ((Post.like s p u i).interactions.map (fun x => x.interactionId)).Nodup
    rw [e1]
    exact wf_append_fresh s _ hwf hf
  · intro c
    obtain ⟨hl, hcmt⟩ := hcm c
    have hlcount : likeCountOf (Post.like s p u i) c =
        likeCountOf s c + (if c = p then 1 else 0) := by
      unfold likeCountOf
      rw [e1, countInt_append]
      by_cases hpc : c = p
      · subst hpc; simp
      · have hne : (p == c) = false := by
          simp only [beq_eq_false_iff_ne, ne_eq]
          exact fun h => hpc h.symm
        simp [hne, hpc]
    have hccount : commentCountOf (Post.like s p u i) c = commentCountOf s c := by
      unfold commentCountOf
      rw [e1, countInt_append]
      simp
    constructor
    · rw [ep, getCounters_updCounters, hlcount]
      by_cases hpc : c = p
      · subst hpc
        simp [addLikesCount, hl]
      · simp [hpc, hl]
    · rw [ep, getCounters_updCounters, hccount]
      by_cases hpc : c = p
      · subst hpc
        simp [addLikesCount, hcmt]
      · simp [hpc, hcmt]


theorem preserve_unlike (s : LedgerState) (p u : String)
    (hwf : WFLedger s) (hcm : CountersMatch s) :
    WFLedger (Post.unlike s p u).1 ∧ CountersMatch (Post.unlike s p u).1 := by
  simp only [Post.unlike, Post.unlikeQuery]
  exact ⟨hwf, hcm⟩

theorem preserve_createComment (s : LedgerState) (row : InteractionRow)
    (hrow : row.type = "comment")
    (hwf : WFLedger s) (hcm : CountersMatch s) :
    WFLedger (Interaction.create s row) ∧ CountersMatch (Interaction.create s row) := by
  by_cases hex : s.interactions.any (fun x => x.interactionId == row.interactionId) = true
  · have hs : Interaction.create s row = s := by
      unfold Interaction.create createWrites runWrites applyWrite
      simp [hex]
    rw [hs]
    exact ⟨hwf, hcm⟩
  · have hex0 : (s.interactions.any (fun x => x.interactionId == row.interactionId)) = false := by
      simpa using hex
    have hf : ∀ x ∈ s.interactions, x.interactionId ≠ row.interactionId := by
      intro x hx he
      have hany : s.interactions.any (fun x => x.interactionId == row.interactionId) = true :=
        List.any_eq_true.mpr ⟨x, hx, by simp [he]⟩
      rw [hex0] at hany
      cases hany
    have hstate : Interaction.create s row =
        { posts := updCounters row.contentId (addCommentsCount 1) s.posts,
          interactions := s.interactions ++ [row] } := by
      unfold Interaction.create createWrites runWrites applyWrite
      simp [hex0, hrow, runWrites, applyWrite]
    rw [hstate]
    refine ⟨wf_append_fresh s row hwf hf, ?_⟩
    intro c
    obtain ⟨hl, hcmt⟩ := hcm c
    have hlcount :
        (((s.interactions ++ [row]).filter
          (fun x => x.type == "like" && x.contentId == c)).length : Int) = likeCountOf s c := by
      rw [countInt_append]
      simp [likeCountOf, hrow]
    constructor
    · show (getCounters (updCounters row.contentId (addCommentsCount 1) s.posts) c).likesCount = _
      rw [getCounters_updCounters]
      show _ = (((s.interactions ++ [row]).filter
        (fun x => x.type == "like" && x.contentId == c)).length : Int)
      rw [hlcount]
      by_cases hpc : c = row.contentId
      · subst hpc
        rw [if_pos rfl]
        simp only [addCommentsCount]
        exact hl
      · rw [if_neg hpc]
        exact hl
    · show (getCounters (updCounters row.contentId (addCommentsCount 1) s.posts) c).commentsCount = _
      rw [getCounters_updCounters]
      show _ = (((s.interactions ++ [row]).filter
        (fun x => x.type == "comment" && x.contentId == c)).length : Int)
      rw [countInt_append]
      by_cases hpc : c = row.contentId
      · subst hpc
        rw [if_pos rfl]
        have hone : (if (row.type == "comment" && row.contentId == row.contentId) = true
            then (1 : Int) else 0) = 1 := by
          simp [hrow]
        rw [hone]
        simp only [addCommentsCount]
        simp only [commentCountOf] at hcmt
        omega
      · have hne : (row.contentId == c) = false := by
          simp only [beq_eq_false_iff_ne, ne_eq]
          exact fun h => hpc h.symm
        have hzero : (if (row.type == "comment" && row.contentId == c) = true
            then (1 : Int) else 0) = 0 := by
          simp [hne]
        rw [hzero, if_neg hpc]
        simp only [commentCountOf] at hcmt
        omega

theorem preserve_deleteComment (s : LedgerState) (i u : String)
    (hok : okOp s (.deleteComment i u) = true)
    (hwf : WFLedger s) (hcm : CountersMatch s) :
    WFLedger (Interaction.delete s i u).1 ∧ CountersMatch (Interaction.delete s i u).1 := by
  cases hfind : s.interactions.find? (fun x => x.interactionId == i) with
  | none =>
    have hs : Interaction.delete s i u = (s, false) := by
      unfold Interaction.delete
      rw [hfind]
    rw [hs]
    exact ⟨hwf, hcm⟩
  | some r =>
    have hmem : r ∈ s.interactions := List.mem_of_find?_eq_some hfind
    have hri : r.interactionId = i := by simpa [beq_iff_eq] using List.find?_some hfind
    have ht : r.type = "comment" := by
      have h2 := hok
      simp only [okOp, hfind] at h2
      simpa [beq_iff_eq] using h2
    by_cases hu : r.userId = u
    · have hstate : Interaction.delete s i u =
          ({ posts := updCounters r.contentId (addCommentsCount (-1)) s.posts,
             interactions := deleteInteractionRow r.interactionId s.interactions }, true) := by
        unfold Interaction.delete
        rw [hfind]
        simp [hu, ht, hri]
      rw [hstate]
      refine ⟨wf_remove s r.interactionId hwf, ?_⟩
      intro c
      obtain ⟨hl, hcmt⟩ := hcm c
      have hrem := length_filter_remove_id (fun x => x.type == "like" && x.contentId == c)
        s.interactions r hmem hwf
      have hremc := length_filter_remove_id (fun x => x.type == "comment" && x.contentId == c)
        s.interactions r hmem hwf
      simp only [likeCountOf, commentCountOf, deleteInteractionRow] at hl hcmt hrem hremc ⊢
      constructor
      · rw [getCounters_updCounters]
        have hzero : (if (r.type == "like" && r.contentId == c) = true
            then (1 : Nat) else 0) = 0 := by
          simp [ht]
        rw [hzero] at hrem
        by_cases hpc : c = r.contentId
        · subst hpc
          rw [if_pos rfl]
          simp only [addCommentsCount]
          omega
        · rw [if_neg hpc]
          omega
      · rw [getCounters_updCounters]
        by_cases hpc : c = r.contentId
        · subst hpc
          rw [if_pos rfl]
          have hone : (if (r.type == "comment" && r.contentId == r.contentId) = true
              then (1 : Nat) else 0) = 1 := by
            simp [ht]
          rw [hone] at hremc
          simp only [addCommentsCount]
          omega
        · have hne : (r.contentId == c) = false := by
            simp only [beq_eq_false_iff_ne, ne_eq]
            exact fun h => hpc h.symm
          have hzero : (if (r.type == "comment" && r.contentId == c) = true
              then (1 : Nat) else 0) = 0 := by
            simp [hne]
          rw [hzero] at hremc
          rw [if_neg hpc]
          omega
    · have hs : Interaction.delete s i u = (s, false) := by
        unfold Interaction.delete
        rw [hfind]
        simp [hu]
      rw [hs]
      exact ⟨hwf, hcm⟩

theorem preserve_step (s : LedgerState) (op : LedgerOp) (hok : okOp s op = true)
    (hwf : WFLedger s) (hcm : CountersMatch s) :
    WFLedger (applyOp s op) ∧ CountersMatch (applyOp s op) := by
  cases op with
  | like p u i =>
    have hfresh : ∀ x ∈ s.interactions, x.interactionId ≠ i := by
      have h2 := hok
      unfold okOp at h2
      simp only [Bool.not_eq_true'] at h2
      intro x hx he
      have : s.interactions.any (fun x => x.interactionId == i) = true :=
        List.any_eq_true.mpr ⟨x, hx, by simp [he]⟩
      rw [h2] at this
      cases this
    exact preserve_like s p u i hfresh hwf hcm
  | unlike p u => exact preserve_unlike s p u hwf hcm
  | createComment i u cid txt pid =>
    exact preserve_createComment s ⟨i, "comment", u, cid, txt, pid⟩ rfl hwf hcm
  | deleteComment i u => exact preserve_deleteComment s i u hok hwf hcm

/-- C2: starting from any well-formed state whose counters match the log,
after any sequence of completed like/unlike and comment create/delete
operations the like counter of every content item equals the number of
undeleted like interactions targeting it, and the comment counter equals
the number of undeleted comment interactions targeting it. -/
theorem C2_counters_match_log (s : LedgerState) (ops : List LedgerOp)
    (hwf : WFLedger s) (hcm : CountersMatch s) (hok : okRun s ops = true) :
    CountersMatch (runOps s ops) := by
  induction ops generalizing s with
  | nil => simpa [runOps] using hcm
  | cons op ops ih =>
    simp only [okRun, Bool.and_eq_true] at hok
    obtain ⟨h1, h2⟩ := hok
    have hstep := preserve_step s op h1 hwf hcm
    show CountersMatch (runOps (applyOp s op) ops)
    exact ih (applyOp s op) hstep.1 hstep.2 h2

/-- The concrete operation sequence used to instantiate C2. -/
def c2ops : List LedgerOp :=
  [.like "p1" "u1" "i1", .createComment "i2" "u2" "p1" "nice" none,
   .unlike "p1" "u1", .deleteComment "i2" "u2"]

/-- Witness for C2: the invariant holds after running a like, a comment
create, an unlike and a comment delete from the empty store. -/
theorem C2_counters_match_log_witness : CountersMatch (runOps ⟨[], []⟩ c2ops) :=
  C2_counters_match_log ⟨[], []⟩ c2ops (by simp [WFLedger])
    (fun c => ⟨rfl, rfl⟩) (by decide)



/-! ## Distributed rate limiter (models src/middleware/rateLimit.js) -/

/-- A request-count record of the rate-limiting table: `count`, the
`timestamp` at which its window started, and the TTL attribute. -/
structure RateRecord where
  count : Int
  timestamp : Int
  expiryTime : Int
deriving DecidableEq

/-- What one pass reports back: whether the request went through (a denial
is the early 429 response) and the X-RateLimit-Remaining / X-RateLimit-Reset
headers when they are set. -/
structure RateResult where
  allowed : Bool
  remaining : Option Int
  resetSeconds : Option Int
deriving DecidableEq

/-- Models one pass of the `rateLimiter` middleware over the record stored
for one identifier:routeKey, at epoch-second `now`: deny without writing
when the record is inside the window at the limit; increment inside the
window; otherwise put a fresh record with count 1 and a TTL of twice the
window.  The headers are set afterwards from the record read at the start
(only when one existed), and the deny path returns before setting them. -/
def rateLimiterStep (maxRequests windowSizeInSeconds : Int)
    (rec : Option RateRecord) (now : Int) : Option RateRecord × RateResult :=
  match rec with
  | some r =>
    if r.timestamp > now - windowSizeInSeconds then
      if r.count ≥ maxRequests then
        (some r, { allowed := false, remaining := none, resetSeconds := none })
      else
        (some { r with count := r.count + 1 },
         { allowed := true, remaining := some (maxRequests - r.count - 1),
           resetSeconds := some (r.timestamp + windowSizeInSeconds - now) })
    else
      (some { count := 1, timestamp := now, expiryTime := now + windowSizeInSeconds * 2 },
       { allowed := true, remaining := some (maxRequests - r.count - 1),
         resetSeconds := some (r.timestamp + windowSizeInSeconds - now) })
  | none =>
    (some { count := 1, timestamp := now, expiryTime := now + windowSizeInSeconds * 2 },
     { allowed := true, remaining := none, resetSeconds := none })

/-- Runs the middleware over a list of request times against one record. -/
def rateLimiterRun (maxRequests windowSizeInSeconds : Int) :
    Option RateRecord → List Int → Option RateRecord × List RateResult
  | rec, [] => (rec, [])
  | rec, t :: ts =>
    let step := rateLimiterStep maxRequests windowSizeInSeconds rec t
    let rest := rateLimiterRun maxRequests windowSizeInSeconds step.1 ts
    (rest.1, step.2 :: rest.2)

/-- C6 counterexample: with limit 5 and window 60 seconds, five requests at
t = 0 fill the window and the 6th is denied with the stored count unchanged
(that half of the claim holds), but the first admission of the fresh window
at t = 60 reports remaining = -1, computed from the stale record, not
limit - 1 = 4 — so the claim as a whole is false. -/
theorem C6_counterexample :
    ((rateLimiterRun 5 60 none [0, 0, 0, 0, 0, 0, 60]).2.map
      (fun r => (r.allowed, r.remaining))) =
      [(true, none), (true, some 3), (true, some 2), (true, some 1), (true, some 0),
       (false, none), (true, some (-1))] ∧
    (rateLimiterRun 5 60 none [0, 0, 0, 0, 0, 0]).1 =
      (rateLimiterRun 5 60 none [0, 0, 0, 0, 0]).1 ∧
    some (-1 : Int) ≠ some (5 - 1 : Int) := by
  refine ⟨by decide, by decide, by decide⟩

/-- C6 amended: a call inside the window at the limit is denied with the
stored record unchanged; a call after the window elapses stores a fresh
record with count 1, but reports remaining as limit - staleCount - 1 from
the record read before the reset, not limit - 1 (and reports nothing when
no record survived). -/
theorem C6_deny_then_stale_remaining (maxRequests windowSizeInSeconds : Int)
    (r : RateRecord) (now now2 : Int)
    (hwin : r.timestamp > now - windowSizeInSeconds)
    (hcount : r.count ≥ maxRequests)
    (hstale : ¬ r.timestamp > now2 - windowSizeInSeconds) :
    rateLimiterStep maxRequests windowSizeInSeconds (some r) now =
      (some r, { allowed := false, remaining := none, resetSeconds := none }) ∧
    rateLimiterStep maxRequests windowSizeInSeconds (some r) now2 =
      (some { count := 1, timestamp := now2, expiryTime := now2 + windowSizeInSeconds * 2 },
       { allowed := true, remaining := some (maxRequests - r.count - 1),
         resetSeconds := some (r.timestamp + windowSizeInSeconds - now2) }) := by
  constructor
  · simp [rateLimiterStep, hwin, hcount]
  · simp [rateLimiterStep, hstale]

/-- Witness for the amended C6 with limit 5, window 60, a full window record
and the first call of the next window. -/
theorem C6_deny_then_stale_remaining_witness :
    rateLimiterStep 5 60 (some ⟨5, 0, 120⟩) 0 =
      (some ⟨5, 0, 120⟩, { allowed := false, remaining := none, resetSeconds := none }) ∧
    rateLimiterStep 5 60 (some ⟨5, 0, 120⟩) 60 =
      (some ⟨1, 60, 180⟩,
       { allowed := true, remaining := some (5 - 5 - 1), resetSeconds := some (0 + 60 - 60) }) :=
  C6_deny_then_stale_remaining 5 60 ⟨5, 0, 120⟩ 0 60 (by decide) (by decide) (by decide)

/-! ## Timeline aggregation (models Post.getTimelinePosts together with the
dynamoDb.query wrapper of src/config/dynamodb.js) -/

/-- A post item as the timeline reads it. -/
structure TimelinePost where
  postId : String
  userId : String
  timestamp : Int
deriving DecidableEq

/-- Models the `dynamoDb.query` wrapper applied to the UserIdIndex query of
one owner: the wrapper already unwraps the DynamoDB response and returns
the item array itself, limited per query. -/
def queryPostsByUser (table : List TimelinePost) (uid : String) (limit : Nat) :
    List TimelinePost :=
  (table.filter (fun p => p.userId == uid)).take limit

/-- Models the property access `result.Items` that getTimelinePosts performs
on the wrapper value: the wrapper returns the item array, an array has no
Items property, so the access yields undefined. -/
def itemsProperty (result : List TimelinePost) : Option (List TimelinePost) :=
  none

/-- Models JS flatMap: an array returned by the callback is spliced in, any
non-array value (here undefined) stays as one element. -/
def jsFlatMapItems (results : List (List TimelinePost)) : List (Option TimelinePost) :=
  results.flatMap (fun r =>
    match itemsProperty r with
    | some items => items.map some
    | none => [none])

def insertByTimestampDesc (p : TimelinePost) : List TimelinePost → List TimelinePost
  | [] => [p]
  | q :: rest =>
    if p.timestamp ≥ q.timestamp then p :: q :: rest else q :: insertByTimestampDesc p rest

/-- Sorting newest first, as the comparator
`new Date(b.timestamp) - new Date(a.timestamp)` orders defined posts. -/
def sortByTimestampDesc : List TimelinePost → List TimelinePost
  | [] => []
  | p :: rest => insertByTimestampDesc p (sortByTimestampDesc rest)

/-- Models JS Array.prototype.sort with a comparator: undefined elements are
moved to the end without the comparator ever being called on them; the
defined elements are ordered by the comparator. -/
def jsSortPosts (l : List (Option TimelinePost)) : List (Option TimelinePost) :=
  (sortByTimestampDesc (l.filterMap id)).map some ++ l.filter (fun x => x.isNone)

/-- Models `Post.getTimelinePosts`: one limited query per owner, flatMap
over `result.Items`, sort by timestamp descending, truncate to limit. -/
def getTimelinePosts (table : List TimelinePost) (userIds : List String) (limit : Nat) :
    List (Option TimelinePost) :=
  let results := userIds.map (fun uid => queryPostsByUser table uid limit)
  let allPosts := jsFlatMapItems results
  (jsSortPosts allPosts).take limit

/-- Modelled from the spec (§4.4), for contrast: fetch up to limit per
owner, concatenate the item arrays themselves, sort newest first, truncate
to limit. -/
def specTimelineAggregate (table : List TimelinePost) (userIds : List String) (limit : Nat) :
    List TimelinePost :=
  (sortByTimestampDesc (userIds.flatMap (fun uid => queryPostsByUser table uid limit))).take limit

/-- The content of claim C7: u1 owns posts at 10, 8, 5 and u2 at 9, 7. -/
def timelineTable : List TimelinePost :=
  [⟨"a1", "u1", 10⟩, ⟨"a2", "u1", 8⟩, ⟨"a3", "u1", 5⟩, ⟨"b1", "u2", 9⟩, ⟨"b2", "u2", 7⟩]

/-- C7: the code reads `.Items` off the array the query wrapper already
unwrapped, so every per-owner result degrades to undefined and the call
returns a list of undefineds instead of the posts; the spec-modelled
aggregation on the same input returns the posts at timestamps 10, 9, 8 the
claim requires. -/
theorem C7_timeline_items_bug :
    getTimelinePosts timelineTable ["u1", "u2"] 3 = [none, none] ∧
    specTimelineAggregate timelineTable ["u1", "u2"] 3 =
      [⟨"a1", "u1", 10⟩, ⟨"b1", "u2", 9⟩, ⟨"a2", "u1", 8⟩] := by
  refine ⟨by decide, by decide⟩

/-! ## Notification fan-out guards (models the notification blocks of
src/controllers/interactionController.js) -/

/-- One observable side effect of a notification block: the SNS publish or
the socket.io emit.  The blocks persist no Notification record, so the
effect list is the complete fan-out. -/
inductive NotifyEffect where
  | snsPublish (ntype senderId recipientId contentId : String)
  | socketEmit (recipientId : String)
deriving DecidableEq

/-- Models the notification block of `likePost`: it runs only under the
guard `post && post.userId !== userId`. -/
def likePostNotifyEffects (post : Option TimelinePost) (postId userId : String) :
    List NotifyEffect :=
  match post with
  | some p =>
    if p.userId ≠ userId then
      [.snsPublish "like" userId p.userId postId, .socketEmit p.userId]
    else []
  | none => []

/-- Models the notification block of `sharePost` (same guard). -/
def sharePostNotifyEffects (post : Option TimelinePost) (postId userId : String) :
    List NotifyEffect :=
  match post with
  | some p =>
    if p.userId ≠ userId then
      [.snsPublish "share" userId p.userId postId, .socketEmit p.userId]
    else []
  | none => []

/-- Models the owner-notification block of `addComment`: guard
`contentOwnerId && contentOwnerId !== userId`. -/
def addCommentNotifyEffects (contentOwnerId : Option String) (contentId userId : String) :
    List NotifyEffect :=
  match contentOwnerId with
  | some o =>
    if o ≠ userId then
      [.snsPublish "comment" userId o contentId, .socketEmit o]
    else []
  | none => []

/-- Models the notification block of `likeComment`: guard
`comment.userId !== userId`. -/
def likeCommentNotifyEffects (comment : Option InteractionRow) (commentId userId : String) :
    List NotifyEffect :=
  match comment with
  | some cm =>
    if cm.userId ≠ userId then
      [.snsPublish "like" userId cm.userId commentId, .socketEmit cm.userId]
    else []
  | none => []

/-- C9: whenever the acting user owns the target content (actor equals
recipient), every notification block is suppressed before any step runs —
the effect list is empty, so nothing is published to SNS, nothing is
emitted on the live channel, and no Notification record is written. -/
theorem C9_self_notification_suppressed (p : TimelinePost) (cm : InteractionRow)
    (postId commentId contentId userId : String)
    (hp : p.userId = userId) (hc : cm.userId = userId) :
    likePostNotifyEffects (some p) postId userId = [] ∧
    sharePostNotifyEffects (some p) postId userId = [] ∧
    addCommentNotifyEffects (some userId) contentId userId = [] ∧
    likeCommentNotifyEffects (some cm) commentId userId = [] := by
  refine ⟨?_, ?_, ?_, ?_⟩ <;>
    simp [likePostNotifyEffects, sharePostNotifyEffects, addCommentNotifyEffects,
      likeCommentNotifyEffects, hp, hc]

/-- Witness for C9: a user liking, sharing and commenting on their own
post and liking their own comment produces no effects. -/
theorem C9_self_notification_suppressed_witness :
    likePostNotifyEffects (some ⟨"p1", "u1", 3⟩) "p1" "u1" = [] ∧
    sharePostNotifyEffects (some ⟨"p1", "u1", 3⟩) "p1" "u1" = [] ∧
    addCommentNotifyEffects (some "u1") "p1" "u1" = [] ∧
    likeCommentNotifyEffects (some ⟨"c1", "comment", "u1", "p1", "hi", none⟩) "c1" "u1" = [] :=
  C9_self_notification_suppressed ⟨"p1", "u1", 3⟩ ⟨"c1", "comment", "u1", "p1", "hi", none⟩
    "p1" "c1" "p1" "u1" rfl rfl

/-! ## User records and password-hash stripping (models src/models/User.js) -/

/-- A user item with the fields the claim depends on. -/
structure UserRow where
  userId : String
  username : String
  email : String
  passwordHash : Option String
  bio : String
deriving DecidableEq

/-- Models the `delete user.passwordHash` statements. -/
def deletePasswordHash (u : UserRow) : UserRow :=
  { u with passwordHash := none }

namespace User

/-- Models `User.create`: build the item (hashing the password when one is
given), conditional put on a fresh userId, then strip the hash from the
returned object.  `none` is the thrown conditional-check failure. -/
def create (bcryptHash : String → String) (db : List UserRow)
    (userId username email : String) (password : Option String) (bio : String) :
    Option (List UserRow × UserRow) :=
  let userItem : UserRow :=
    { userId := userId, username := username, email := email,
      passwordHash := password.map bcryptHash, bio := bio }
  if db.any (fun u => u.userId == userId) then none
  else some (db ++ [userItem], deletePasswordHash userItem)

/-- Models `User.getById`: get by key, then strip the hash. -/
def getById (db : List UserRow) (userId : String) : Option UserRow :=
  (db.find? (fun u => u.userId == userId)).map deletePasswordHash

/-- Models `User.getByUsername`: query the username index, take the first
item, strip the hash. -/
def getByUsername (db : List UserRow) (username : String) : Option UserRow :=
  match db.filter (fun u => u.username == username) with
  | [] => none
  | u :: _ => some (deletePasswordHash u)

/-- Models `User.getByEmail`: query the email index and return the first
item as stored — including passwordHash, for authentication. -/
def getByEmail (db : List UserRow) (email : String) : Option UserRow :=
  match db.filter (fun u => u.email == email) with
  | [] => none
  | u :: _ => some u

end User

/-- C10: every user object returned by create, getById and getByUsername
has the passwordHash field removed, while getByEmail returns the stored
item itself, hash included. -/
theorem C10_password_hash_stripped
    (bcryptHash : String → String) (db db1 : List UserRow)
    (uid uname em cuid cuname cem bio : String) (pw : Option String)
    (u1 u2 u3 uc : UserRow)
    (h1 : User.getById db uid = some u1)
    (h2 : User.getByUsername db uname = some u2)
    (h3 : User.getByEmail db em = some u3)
    (h4 : User.create bcryptHash db cuid cuname cem pw bio = some (db1, uc)) :
    u1.passwordHash = none ∧ u2.passwordHash = none ∧ uc.passwordHash = none ∧
    u3 ∈ db ∧ u3.email = em := by
  refine ⟨?_, ?_, ?_, ?_, ?_⟩
  · obtain ⟨v, hv, he⟩ := Option.map_eq_some'.mp h1
    rw [← he]
    rfl
  · unfold User.getByUsername at h2
    cases hf : db.filter (fun u => u.username == uname) with
    | nil =>
      rw [hf] at h2
      exact Option.noConfusion h2
    | cons u t =>
      rw [hf] at h2
      have hu2 : deletePasswordHash u = u2 := Option.some.inj h2
      rw [← hu2]
      rfl
  · unfold User.create at h4
    by_cases hex : db.any (fun u => u.userId == cuid) = true
    · rw [if_pos hex] at h4
      exact Option.noConfusion h4
    · rw [if_neg hex] at h4
      have hp := Option.some.inj h4
      have huc : uc = deletePasswordHash
          { userId := cuid, username := cuname, email := cem,
            passwordHash := pw.map bcryptHash, bio := bio } := (congrArg Prod.snd hp).symm
      rw [huc]
      rfl
  · unfold User.getByEmail at h3
    cases hf : db.filter (fun u => u.email == em) with
    | nil =>
      rw [hf] at h3
      exact Option.noConfusion h3
    | cons u t =>
      rw [hf] at h3
      have hu : u = u3 := Option.some.inj h3
      have humem : u ∈ db.filter (fun x => x.email == em) := by
        rw [hf]
        exact List.mem_cons_self u t
      exact hu ▸ (List.mem_filter.mp humem).1
  · unfold User.getByEmail at h3
    cases hf : db.filter (fun u => u.email == em) with
    | nil =>
      rw [hf] at h3
      exact Option.noConfusion h3
    | cons u t =>
      rw [hf] at h3
      have hu : u = u3 := Option.some.inj h3
      have humem : u ∈ db.filter (fun x => x.email == em) := by
        rw [hf]
        exact List.mem_cons_self u t
      have hbeq := (List.mem_filter.mp humem).2
      rw [← hu]
      simpa [beq_iff_eq] using hbeq

/-- The one-user database used to instantiate C10. -/
def c10db : List UserRow :=
  [⟨"u1", "alice", "alice@x", some "hash1", "hello"⟩]

/-- Witness for C10 on a one-user database, with a create of a second
user. -/
theorem C10_password_hash_stripped_witness :
    (⟨"u1", "alice", "alice@x", none, "hello"⟩ : UserRow).passwordHash = none ∧
    (⟨"u1", "alice", "alice@x", none, "hello"⟩ : UserRow).passwordHash = none ∧
    (⟨"u2", "bob", "bob@x", none, ""⟩ : UserRow).passwordHash = none ∧
    (⟨"u1", "alice", "alice@x", some "hash1", "hello"⟩ : UserRow) ∈ c10db ∧
    (⟨"u1", "alice", "alice@x", some "hash1", "hello"⟩ : UserRow).email = "alice@x" :=
  C10_password_hash_stripped (fun s => s) c10db
    (c10db ++ [⟨"u2", "bob", "bob@x", some "pw", ""⟩])
    "u1" "alice" "alice@x" "u2" "bob" "bob@x" "" (some "pw")
    ⟨"u1", "alice", "alice@x", none, "hello"⟩
    ⟨"u1", "alice", "alice@x", none, "hello"⟩
    ⟨"u1", "alice", "alice@x", some "hash1", "hello"⟩
    ⟨"u2", "bob", "bob@x", none, ""⟩
    (by decide) (by decide) (by decide) (by decide)


/-! ## Cursor codec (models the lastKey handling of
interactionController.getComments: encode is
`Buffer.from(JSON.stringify(key)).toString('base64')`, decode is
`JSON.parse(Buffer.from(token, 'base64').toString())` inside a try/catch
that answers 400 on any parse failure).  Strings are modelled as lists of
character codes, byte strings as lists of byte values. -/

/-- The base64 alphabet: sextet value to ASCII code. -/
def encChar (s : Nat) : Nat :=
  if s < 26 then 65 + s
  else if s < 52 then 97 + (s - 26)
  else if s < 62 then 48 + (s - 52)
  else if s = 62 then 43
  else 47

/-- Inverse alphabet lookup; padding and foreign characters decode to
nothing, as Node's lenient base64 decoder skips them. -/
def decChar (c : Nat) : Option Nat :=
  if 65 ≤ c ∧ c ≤ 90 then some (c - 65)
  else if 97 ≤ c ∧ c ≤ 122 then some (c - 97 + 26)
  else if 48 ≤ c ∧ c ≤ 57 then some (c - 48 + 52)
  else if c = 43 then some 62
  else if c = 47 then some 63
  else none

/-- base64 encoding of a byte list, with `=` padding (code 61). -/
def base64Encode : List Nat → List Nat
  | a :: b :: c :: rest =>
    encChar (a / 4) :: encChar ((a % 4) * 16 + b / 16) ::
      encChar ((b % 16) * 4 + c / 64) :: encChar (c % 64) :: base64Encode rest
  | [a, b] => [encChar (a / 4), encChar ((a % 4) * 16 + b / 16), encChar ((b % 16) * 4), 61]
  | [a] => [encChar (a / 4), encChar ((a % 4) * 16), 61, 61]
  | [] => []

/-- Packs decoded sextets back into bytes, dropping leftover bits, as
Node's decoder does. -/
def packSextets : List Nat → List Nat
  | s1 :: s2 :: s3 :: s4 :: rest =>
    (s1 * 4 + s2 / 16) :: ((s2 % 16) * 16 + s3 / 4) :: ((s3 % 4) * 64 + s4) ::
      packSextets rest
  | [s1, s2, s3] => [s1 * 4 + s2 / 16, (s2 % 16) * 16 + s3 / 4]
  | [s1, s2] => [s1 * 4 + s2 / 16]
  | _ => []

/-- Node-style lenient base64 decode: skip non-alphabet characters
(padding included), then pack the sextets. -/
def base64Decode (l : List Nat) : List Nat :=
  packSextets (l.filterMap decChar)

/-- UTF-8 encoding of code points (basic plane). -/
def utf8Encode : List Nat → List Nat
  | [] => []
  | c :: rest =>
    (if c < 128 then [c]
     else if c < 2048 then [192 + c / 64, 128 + c % 64]
     else [224 + c / 4096, 128 + (c / 64) % 64, 128 + c % 64]) ++ utf8Encode rest

/-- UTF-8 decoding as Buffer.toString performs it: ill-formed bytes come
out as the replacement character U+FFFD (65533).  The fuel argument only
drives the recursion; every step consumes at least one byte, so the input
length is always enough fuel. -/
def utf8DecodeAux : Nat → List Nat → List Nat
  | 0, _ => []
  | _, [] => []
  | fuel + 1, b :: rest =>
    if b < 128 then b :: utf8DecodeAux fuel rest
    else if 194 ≤ b ∧ b ≤ 223 then
      match rest with
      | b2 :: rest2 =>
        if 128 ≤ b2 ∧ b2 ≤ 191 then ((b - 192) * 64 + (b2 - 128)) :: utf8DecodeAux fuel rest2
        else 65533 :: utf8DecodeAux fuel rest
      | [] => [65533]
    else if 224 ≤ b ∧ b ≤ 239 then
      match rest with
      | b2 :: b3 :: rest3 =>
        if (128 ≤ b2 ∧ b2 ≤ 191) ∧ (128 ≤ b3 ∧ b3 ≤ 191) then
          ((b - 224) * 4096 + (b2 - 128) * 64 + (b3 - 128)) :: utf8DecodeAux fuel rest3
        else 65533 :: utf8DecodeAux fuel rest
      | _ => 65533 :: utf8DecodeAux fuel rest
    else 65533 :: utf8DecodeAux fuel rest

def utf8Decode (l : List Nat) : List Nat :=
  utf8DecodeAux l.length l

/-- JSON.stringify of the members of a string-valued object (quote, colon,
comma are codes 34, 58, 44). -/
def jsonStringifyPairs : List (List Nat × List Nat) → List Nat
  | [] => []
  | [(k, v)] => 34 :: (k ++ 34 :: 58 :: 34 :: (v ++ [34]))
  | (k, v) :: rest => 34 :: (k ++ 34 :: 58 :: 34 :: (v ++ [34])) ++ 44 :: jsonStringifyPairs rest

/-- JSON.stringify of a string-valued object (braces are codes 123, 125). -/
def jsonStringify (m : List (List Nat × List Nat)) : List Nat :=
  123 :: jsonStringifyPairs m ++ [125]

/-- Scans a JSON string body up to its closing quote. -/
def scanString : List Nat → Option (List Nat × List Nat)
  | [] => none
  | c :: rest =>
    if c = 34 then some ([], rest)
    else
      match scanString rest with
      | some (s, r) => some (c :: s, r)
      | none => none

/-- Parses the members of a string-valued JSON object. -/
def parseMembers : Nat → List Nat → Option (List (List Nat × List Nat) × List Nat)
  | 0, _ => none
  | fuel + 1, l =>
    match l with
    | 34 :: rest =>
      match scanString rest with
      | some (k, r1) =>
        match r1 with
        | 58 :: 34 :: r2 =>
          match scanString r2 with
          | some (v, r3) =>
            match r3 with
            | 44 :: r4 =>
              match parseMembers fuel r4 with
              | some (ps, r) => some ((k, v) :: ps, r)
              | none => none
            | _ => some ([(k, v)], r3)
          | none => none
        | _ => none
      | none => none
    | _ => none

/-- JSON.parse restricted to the object shape the cursor carries; `none` is
the thrown SyntaxError. -/
def jsonParse (l : List Nat) : Option (List (List Nat × List Nat)) :=
  match l with
  | 123 :: rest =>
    match rest with
    | [125] => some []
    | _ =>
      match parseMembers rest.length rest with
      | some (ps, [125]) => some ps
      | _ => none
  | _ => none

/-- Models the cursor decode of getComments. -/
def decodeCursor (token : List Nat) : Option (List (List Nat × List Nat)) :=
  jsonParse (utf8Decode (base64Decode token))

/-- Models the cursor encode of getComments. -/
def encodeCursor (m : List (List Nat × List Nat)) : List Nat :=
  base64Encode (utf8Encode (jsonStringify m))

/-- Models the lastKey step of getComments: a missing token proceeds with
no start key, a decodable token proceeds with the key, anything else is the
400 Invalid-lastKey response — the try/catch admits no other outcome. -/
def parseLastKeyStep (lastKey : Option (List Nat)) :
    Except Nat (Option (List (List Nat × List Nat))) :=
  match lastKey with
  | none => .ok none
  | some t =>
    match decodeCursor t with
    | some m => .ok (some m)
    | none => .error 400

/-- A printable ASCII character that needs no JSON escaping. -/
def PlainChar (c : Nat) : Prop :=
  32 ≤ c ∧ c < 127 ∧ c ≠ 34 ∧ c ≠ 92

instance (c : Nat) : Decidable (PlainChar c) := by
  unfold PlainChar
  infer_instance

def PlainField (s : List Nat) : Prop := ∀ c ∈ s, PlainChar c

instance (s : List Nat) : Decidable (PlainField s) := by
  unfold PlainField
  infer_instance

/-- A valid position marker: a string-keyed, string-valued object whose
characters need no JSON escaping (DynamoDB uuid and ISO-timestamp keys are
of this shape). -/
def PlainMarker (m : List (List Nat × List Nat)) : Prop :=
  ∀ p ∈ m, PlainField p.1 ∧ PlainField p.2

instance (m : List (List Nat × List Nat)) : Decidable (PlainMarker m) := by
  unfold PlainMarker
  infer_instance

/-- The character codes of the literal token "garbage". -/
def garbageToken : List Nat := [103, 97, 114, 98, 97, 103, 101]



theorem decChar_encChar : ∀ s, s < 64 → decChar (encChar s) = some s := by decide

theorem list_chunk3_induction {P : List Nat → Prop} (h0 : P []) (h1 : ∀ a, P [a])
    (h2 : ∀ a b, P [a, b]) (h3 : ∀ a b c l, P l → P (a :: b :: c :: l)) :
    ∀ l, P l
  | [] => h0
  | [a] => h1 a
  | [a, b] => h2 a b
  | a :: b :: c :: l => h3 a b c l (list_chunk3_induction h0 h1 h2 h3 l)

theorem base64_roundtrip : ∀ (bs : List Nat), (∀ b ∈ bs, b < 256) →
    base64Decode (base64Encode bs) = bs := by
  have d61 : decChar 61 = none := by decide
  intro bs
  induction bs using list_chunk3_induction with
  | h0 => intro _; rfl
  | h1 a =>
    intro h
    have ha : a < 256 := h a (by simp)
    have d1 := decChar_encChar (a / 4) (by omega)
    have d2 := decChar_encChar (a % 4 * 16) (by omega)
    simp only [base64Encode, base64Decode, List.filterMap_cons, d1, d2, d61,
      List.filterMap_nil, packSextets, List.cons.injEq, and_true]
    omega
  | h2 a b =>
    intro h
    have ha : a < 256 := h a (by simp)
    have hb : b < 256 := h b (by simp)
    have d1 := decChar_encChar (a / 4) (by omega)
    have d2 := decChar_encChar (a % 4 * 16 + b / 16) (by omega)
    have d3 := decChar_encChar (b % 16 * 4) (by omega)
    simp only [base64Encode, base64Decode, List.filterMap_cons, d1, d2, d3, d61,
      List.filterMap_nil, packSextets, List.cons.injEq, and_true]
    constructor
    · omega
    · omega
  | h3 a b c l ih =>
    intro h
    have ha : a < 256 := h a (by simp)
    have hb : b < 256 := h b (by simp)
    have hc : c < 256 := h c (by simp)
    have hrest : ∀ x ∈ l, x < 256 := fun x hx => h x (by simp [hx])
    have d1 := decChar_encChar (a / 4) (by omega)
    have d2 := decChar_encChar (a % 4 * 16 + b / 16) (by omega)
    have d3 := decChar_encChar (b % 16 * 4 + c / 64) (by omega)
    have d4 := decChar_encChar (c % 64) (by omega)
    have htail := ih hrest
    simp only [base64Decode] at htail
    simp only [base64Encode, base64Decode, List.filterMap_cons, d1, d2, d3, d4,
      packSextets, htail, List.cons.injEq]
    refine ⟨by omega, by omega, by omega, trivial⟩

theorem utf8Encode_ascii : ∀ (l : List Nat), (∀ c ∈ l, c < 128) → utf8Encode l = l := by
  intro l
  induction l with
  | nil => intro _; rfl
  | cons c rest ih =>
    intro h
    have hc : c < 128 := h c (by simp)
    simp only [utf8Encode, if_pos hc]
    rw [ih (fun x hx => h x (by simp [hx]))]
    simp

theorem utf8DecodeAux_ascii : ∀ (fuel : Nat) (l : List Nat), l.length ≤ fuel →
    (∀ c ∈ l, c < 128) → utf8DecodeAux fuel l = l := by
  intro fuel
  induction fuel with
  | zero =>
    intro l hl _
    cases l with
    | nil => rfl
    | cons b rest => simp at hl
  | succ fuel ih =>
    intro l hl h
    cases l with
    | nil => rfl
    | cons b rest =>
      have hb : b < 128 := h b (by simp)
      simp only [utf8DecodeAux, if_pos hb]
      rw [ih rest (by simp only [List.length_cons] at hl; omega)
        (fun x hx => h x (by simp [hx]))]

theorem utf8Decode_ascii (l : List Nat) (h : ∀ c ∈ l, c < 128) : utf8Decode l = l :=
  utf8DecodeAux_ascii l.length l le_rfl h

theorem jsonStringifyPairs_ascii : ∀ (m : List (List Nat × List Nat)), PlainMarker m →
    ∀ c ∈ jsonStringifyPairs m, c < 128 := by
  intro m
  induction m with
  | nil => intro _ c hc; cases hc
  | cons p rest ih =>
    intro hp
    obtain ⟨k, v⟩ := p
    have hkv := hp (k, v) (by simp)
    have hk : ∀ x ∈ k, x < 128 := fun x hx => (hkv.1 x hx).2.1.trans_le (by norm_num)
    have hv : ∀ x ∈ v, x < 128 := fun x hx => (hkv.2 x hx).2.1.trans_le (by norm_num)
    have ihr : ∀ c ∈ jsonStringifyPairs rest, c < 128 :=
      ih (fun q hq => hp q (by simp [hq]))
    cases rest with
    | nil =>
      simp only [jsonStringifyPairs, List.forall_mem_cons, List.forall_mem_append,
        List.forall_mem_singleton]
      repeat' apply And.intro
      all_goals first
        | exact hk
        | exact hv
        | norm_num
    | cons q rest2 =>
      simp only [jsonStringifyPairs, List.cons_append, List.forall_mem_cons,
        List.forall_mem_append, List.forall_mem_singleton]
      repeat' apply And.intro
      all_goals first
        | exact hk
        | exact hv
        | exact ihr
        | norm_num

theorem jsonStringify_ascii (m : List (List Nat × List Nat)) (hp : PlainMarker m) :
    ∀ c ∈ jsonStringify m, c < 128 := by
  intro c hc
  simp only [jsonStringify, List.mem_cons, List.mem_append, List.mem_singleton] at hc
  rcases hc with (rfl | hc) | hc2
  · norm_num
  · exact jsonStringifyPairs_ascii m hp c hc
  · rcases hc2 with rfl | hc3
    · norm_num
    · cases hc3

theorem jsonStringifyPairs_length : ∀ (m : List (List Nat × List Nat)),
    m.length ≤ (jsonStringifyPairs m).length := by
  intro m
  induction m with
  | nil => simp [jsonStringifyPairs]
  | cons p rest ih =>
    obtain ⟨k, v⟩ := p
    cases rest with
    | nil => simp [jsonStringifyPairs]
    | cons q rest2 =>
      simp only [jsonStringifyPairs, List.length_cons, List.length_append] at ih ⊢
      omega

theorem scanString_plain (s : List Nat) (hs : PlainField s) (r : List Nat) :
    scanString (s ++ 34 :: r) = some (s, r) := by
  induction s with
  | nil => simp [scanString]
  | cons c cs ih =>
    have hc34 : ¬ c = 34 := (hs c (by simp)).2.2.1
    simp only [List.cons_append, scanString, if_neg hc34, List.append_eq]
    rw [ih (fun x hx => hs x (by simp [hx]))]


theorem parseMembers_stringify : ∀ (m : List (List Nat × List Nat)) (fuel : Nat),
    m ≠ [] → m.length ≤ fuel → PlainMarker m →
    parseMembers fuel (jsonStringifyPairs m ++ [125]) = some (m, [125]) := by
  intro m
  induction m with
  | nil => intro fuel hne _ _; exact absurd rfl hne
  | cons p rest ih =>
    intro fuel hne hfuel hplain
    obtain ⟨k, v⟩ := p
    have hkv := hplain (k, v) (by simp)
    cases fuel with
    | zero => simp at hfuel
    | succ fuel =>
      cases rest with
      | nil =>
        have e : jsonStringifyPairs [(k, v)] ++ [125] =
            34 :: (k ++ 34 :: (58 :: 34 :: (v ++ 34 :: [125]))) := by
          simp [jsonStringifyPairs]
        rw [e]
        simp only [parseMembers, scanString_plain k hkv.1, scanString_plain v hkv.2]
      | cons q rest2 =>
        have e : jsonStringifyPairs ((k, v) :: q :: rest2) ++ [125] =
            34 :: (k ++ 34 :: (58 :: 34 :: (v ++ 34 ::
              (44 :: (jsonStringifyPairs (q :: rest2) ++ [125]))))) := by
          simp [jsonStringifyPairs]
        rw [e]
        have hrest : PlainMarker (q :: rest2) := fun x hx => hplain x (by simp [hx])
        have hrec := ih fuel (by simp)
          (by simp only [List.length_cons] at hfuel ⊢; omega) hrest
        simp only [parseMembers, scanString_plain k hkv.1, scanString_plain v hkv.2, hrec]

theorem jsonParse_stringify : ∀ (m : List (List Nat × List Nat)), PlainMarker m →
    jsonParse (jsonStringify m) = some m := by
  intro m hp
  cases m with
  | nil => rfl
  | cons p rest =>
    obtain ⟨k, v⟩ := p
    have hne : ((k, v) :: rest) ≠ ([] : List (List Nat × List Nat)) := by simp
    have hlen0 := jsonStringifyPairs_length ((k, v) :: rest)
    have hht : ∃ t, jsonStringifyPairs ((k, v) :: rest) = 34 :: t := by
      cases rest with
      | nil => exact ⟨_, rfl⟩
      | cons q rest2 =>
        refine ⟨(k ++ 34 :: 58 :: 34 :: (v ++ [34])) ++ 44 :: jsonStringifyPairs (q :: rest2), ?_⟩
        simp [jsonStringifyPairs]
    obtain ⟨t, ht⟩ := hht
    have hparse := parseMembers_stringify ((k, v) :: rest)
        ((jsonStringifyPairs ((k, v) :: rest) ++ [125]).length) hne
        (by simp only [List.length_append, List.length_cons] at hlen0 ⊢; omega) hp
    show jsonParse (123 :: jsonStringifyPairs ((k, v) :: rest) ++ [125]) = _
    rw [ht] at hparse ⊢
    simp only [List.cons_append] at hparse ⊢
    simp only [jsonParse, hparse]

/-- C8: the cursor codec round-trips every valid position marker exactly,
the token "garbage" fails to decode, the lastKey step answers it with the
400 Invalid-lastKey response, and for any token the step either succeeds or
answers 400 — never an unrelated internal error. -/
theorem C8_cursor_codec (m : List (List Nat × List Nat)) (t : List Nat)
    (hp : PlainMarker m) :
    decodeCursor (encodeCursor m) = some m ∧
    decodeCursor garbageToken = none ∧
    parseLastKeyStep (some garbageToken) = .error 400 ∧
    (parseLastKeyStep (some t) = .error 400 ∨
      ∃ key, parseLastKeyStep (some t) = .ok (some key)) := by
  have hg : decodeCursor garbageToken = none := by decide
  refine ⟨?_, hg, by simp only [parseLastKeyStep, hg], ?_⟩
  · have hascii := jsonStringify_ascii m hp
    unfold decodeCursor encodeCursor
    rw [utf8Encode_ascii _ hascii,
      base64_roundtrip _ (fun b hb => (hascii b hb).trans (by norm_num)),
      utf8Decode_ascii _ hascii]
    exact jsonParse_stringify m hp
  · cases h : decodeCursor t with
    | none => left; simp [parseLastKeyStep, h]
    | some key => right; exact ⟨key, by simp [parseLastKeyStep, h]⟩

/-- The marker of the witness: the object with one field "id" with value
"1" (codes 105 100 and 49). -/
def markerExample : List (List Nat × List Nat) := [([105, 100], [49])]

/-- Witness for C8 at the concrete marker and the token "garbage". -/
theorem C8_cursor_codec_witness :
    decodeCursor (encodeCursor markerExample) = some markerExample ∧
    decodeCursor garbageToken = none ∧
    parseLastKeyStep (some garbageToken) = .error 400 ∧
    (parseLastKeyStep (some garbageToken) = .error 400 ∨
      ∃ key, parseLastKeyStep (some garbageToken) = .ok (some key)) :=
  C8_cursor_codec markerExample garbageToken (by decide)


end SocialBee
